import Mathlib

/-!
Shallow embedding of the write-behind session store and the topic-based
broadcast hub of the Patty-Peck multi-agent service, together with proofs
about the behaviour of its operations.

The embedding follows the Python sources:
- custom_session_service.py (CustomAsyncSessionService): in-memory cache,
  synchronous reads with durable fallback, fire-and-forget durable upserts,
  background-task registry;
- fast_session_service.py / async_session_wrapper.py: the same scheduling
  pattern over a delegated durable writer;
- inbox_router.py: per-conversation and global listener registries, the
  broadcast functions, the stream generators and their cleanup blocks.

Durable serialization (json.dumps / json.loads round trips through the
sessions table) is modelled at the value level: stored values are kept as
structured values, and loads-after-dumps is the identity.  Background tasks
are modelled by explicit handles together with a completion oracle, and a
failing operation by an explicit error outcome.
-/

set_option autoImplicit false

namespace PattyPeck

/-- JSON-like values, the payload domain of session records, session state
and broadcast events. -/
inductive JVal where
  | jnull : JVal
  | jbool : Bool → JVal
  | jnum : Int → JVal
  | jstr : String → JVal
  | jarr : List JVal → JVal
  | jobj : List (String × JVal) → JVal

/-- Lookup in an insertion-ordered string-keyed map, the embedding of a
Python dict read (`m[k]` / `m.get(k)`). -/
def dictGet? {α : Type} (m : List (String × α)) (k : String) : Option α :=
  match m with
  | [] => none
  | (k2, v) :: rest => if k2 = k then some v else dictGet? rest k

/-- Membership test on an insertion-ordered string-keyed map, the embedding
of the Python `k in m` check on a dict. -/
def dictHas {α : Type} (m : List (String × α)) (k : String) : Bool :=
  match m with
  | [] => false
  | (k2, _) :: rest => if k2 = k then true else dictHas rest k

/-- Assignment on an insertion-ordered string-keyed map, the embedding of the
Python dict write `m[k] = v`: replaces the value in place when the key is
present, appends a new entry otherwise. -/
def dictSet {α : Type} (m : List (String × α)) (k : String) (v : α) : List (String × α) :=
  match m with
  | [] => [(k, v)]
  | (k2, w) :: rest => if k2 = k then (k2, v) :: rest else (k2, w) :: dictSet rest k v

/-- A row of the durable `sessions` table, as touched by the raw-SQL paths of
custom_session_service.py: key columns plus the two JSON blobs. -/
structure DbRow where
  app_name : String
  user_id : String
  events : JVal
  state : JVal

/-- State of a `CustomAsyncSessionService` instance
(custom_session_service.py:28-43) together with the durable store it talks
to: `memory_cache` embeds `self._memory_cache`, `write_tasks` embeds
`self._write_tasks` (as task handles paired with an external completion
oracle), and `db` embeds the `sessions` table reachable through the engine. -/
structure ServiceState where
  memory_cache : List (String × JVal)
  db : List (String × DbRow)
  write_tasks : List Nat

/-- The `session_data` dict built by `save_session_async`
(custom_session_service.py:95-102) and by `create_session`
(custom_session_service.py:160-167). -/
def sessionDataRecord (session_id user_id app_name : String) (events state : JVal)
    (updated_at : String) : JVal :=
  JVal.jobj [("session_id", JVal.jstr session_id), ("user_id", JVal.jstr user_id),
    ("app_name", JVal.jstr app_name), ("events", events), ("state", state),
    ("updated_at", JVal.jstr updated_at)]

/-- Result of one `get_session` call: the returned value, the service state
after the call, and whether the call touched the durable store. -/
structure GetOutcome where
  result : Option JVal
  after : ServiceState
  durableRead : Bool

/-- Embedding of `CustomAsyncSessionService.get_session`
(custom_session_service.py:45-78).  A cache hit returns the cached value with
no durable read.  On a miss the durable read runs inside the try block:
`dbOk = false` models the whole block raising (connection or parse failure),
which is caught, logged and turned into `None`.  On a durable hit the code
keeps only `row[0]` — the parsed `events` column — caching and returning it. -/
def get_session (st : ServiceState) (session_id : String) (dbOk : Bool) : GetOutcome :=
  match dictGet? st.memory_cache session_id with
  | some v => { result := some v, after := st, durableRead := false }
  | none =>
    if dbOk then
      match dictGet? st.db session_id with
      | some row =>
          { result := some row.events
            after := { st with memory_cache := dictSet st.memory_cache session_id row.events }
            durableRead := true }
      | none => { result := none, after := st, durableRead := true }
    else
      { result := none, after := st, durableRead := true }

/-- Embedding of `CustomAsyncSessionService.save_session_async`
(custom_session_service.py:80-115): overwrite the cache entry with the fresh
`session_data` record, append the new background-task handle, then drop every
handle whose task the completion oracle `done` reports finished.  The durable
store is untouched — the write is only scheduled. -/
def save_session_async (st : ServiceState) (session_id user_id app_name : String)
    (events state : JVal) (now : String) (done : Nat → Bool) (task : Nat) : ServiceState :=
  { memory_cache := dictSet st.memory_cache session_id
      (sessionDataRecord session_id user_id app_name events state now)
    db := st.db
    write_tasks := (st.write_tasks ++ [task]).filter (fun t => ! done t) }

/-- Embedding of `CustomAsyncSessionService.create_session`
(custom_session_service.py:150-175): build a record with empty events and
`state or {}` (absent state becomes the empty object), cache it, then run
`save_session_async` with the same fields; the record built first is
returned.  `nowCreate`/`nowSave` are the two `datetime.utcnow()` readings. -/
def create_session (st : ServiceState) (session_id user_id app_name : String)
    (state : Option JVal) (nowCreate nowSave : String) (done : Nat → Bool) (task : Nat) :
    JVal × ServiceState :=
  (sessionDataRecord session_id user_id app_name (JVal.jarr []) (state.getD (JVal.jobj []))
      nowCreate,
   save_session_async
     (ServiceState.mk
       (dictSet st.memory_cache session_id
         (sessionDataRecord session_id user_id app_name (JVal.jarr [])
           (state.getD (JVal.jobj [])) nowCreate))
       st.db st.write_tasks)
     session_id user_id app_name (JVal.jarr []) (state.getD (JVal.jobj [])) nowSave done task)

/-- Embedding of the SQL upsert issued by `_async_write_session`
(custom_session_service.py:125-144): insert keyed by id; on conflict replace
only `events`, `state` and the update time. -/
def dbUpsert (db : List (String × DbRow)) (id app_name user_id : String)
    (events state : JVal) : List (String × DbRow) :=
  match dictGet? db id with
  | some row => dictSet db id { row with events := events, state := state }
  | none => db ++ [(id, { app_name := app_name, user_id := user_id,
                          events := events, state := state })]

/-- Embedding of the background task `_async_write_session`
(custom_session_service.py:117-148).  `writeOk = false` models the body
raising anywhere inside the try block; the handler logs the error and
returns, leaving the whole service state (cache included) as it was. -/
def async_write_session (st : ServiceState) (session_id app_name user_id : String)
    (events state : JVal) (writeOk : Bool) : ServiceState :=
  if writeOk then
    { st with db := dbUpsert st.db session_id app_name user_id events state }
  else
    st

/-- Embedding of `FastSessionService._async_update_events`
(fast_session_service.py:55-67) and of
`AsyncSessionServiceWrapper._async_update_session`
(async_session_wrapper.py:54-60): run the delegated durable write, whose
outcome is `parentWrite`; an error outcome is caught and logged, leaving the
durable state unchanged. -/
def fast_async_update_events {σ : Type} (parentWrite : Except String σ) (db : σ) : σ :=
  match parentWrite with
  | Except.ok db2 => db2
  | Except.error _ => db

/-- Embedding of the pruning schedule step shared by
`CustomAsyncSessionService.save_session_async`
(custom_session_service.py:106-112),
`FastSessionService.update_session_events` / `update_session_state`
(fast_session_service.py:44-50, 77-81) and
`AsyncSessionServiceWrapper.update_session`
(async_session_wrapper.py:43-49): append the new handle, then keep only the
handles whose task the completion oracle `done` reports unfinished. -/
def schedule_write_task (done : Nat → Bool) (tasks : List Nat) (task : Nat) : List Nat :=
  (tasks ++ [task]).filter (fun t => ! done t)

/-- Embedding of the schedule step of `AsyncSessionServiceWrapper.delete_session`
(async_session_wrapper.py:62-68): the handle is appended and no pruning pass
runs. -/
def schedule_delete_task (tasks : List Nat) (task : Nat) : List Nat :=
  tasks ++ [task]

/-- A subscriber queue of the broadcast hub: its identity, whether `put`
raises on it (a broken/closed consumer), and the items delivered so far. -/
structure SQueue (α : Type) where
  qid : Nat
  broken : Bool
  buf : List α
  deriving DecidableEq

/-- The per-conversation listener registry `_listeners`
(inbox_router.py:42): a dict from conversation id to the list of subscriber
queues. -/
abbrev TopicListeners (α : Type) := List (String × List (SQueue α))

/-- A successful `queue.put`: the event is appended to the queue's buffer. -/
def putEvent {α : Type} (msg : α) (q : SQueue α) : SQueue α :=
  { q with buf := q.buf ++ [msg] }

/-- One delivery attempt: a broken queue rejects the item and stays as it
was, a live queue receives it. -/
def putIfLive {α : Type} (msg : α) (q : SQueue α) : SQueue α :=
  if q.broken then q else putEvent msg q

/-- The delivery loop of `broadcast_to_clients` (inbox_router.py:208-213)
and `broadcast_global` (inbox_router.py:243-251): walk the queue list once,
attempting `put` on each queue; queues whose `put` raises are collected in
`dead_queues` while delivery continues with the rest. -/
def deliverPass {α : Type} (qs : List (SQueue α)) (msg : α) :
    List (SQueue α) × List (SQueue α) :=
  qs.foldl
    (fun acc q =>
      if q.broken then (acc.1 ++ [q], acc.2 ++ [q])
      else (acc.1 ++ [putEvent msg q], acc.2))
    ([], [])

/-- The removal loop that runs after the delivery pass
(inbox_router.py:215-217, 253-254): for each collected dead queue, remove its
first occurrence from the registry list. -/
def removeDead {α : Type} (qs dead : List (SQueue α)) : List (SQueue α) :=
  dead.foldl (fun acc d => acc.eraseP (fun x => x.qid == d.qid)) qs

/-- Embedding of `broadcast_to_clients` (inbox_router.py:202-217): return
unchanged when the topic is absent or its queue list is empty; otherwise run
the full delivery pass and only then remove the queues collected as dead. -/
def broadcast_to_clients {α : Type} (ls : TopicListeners α) (cid : String) (msg : α) :
    TopicListeners α :=
  match dictGet? ls cid with
  | none => ls
  | some qs =>
    if qs.isEmpty then ls
    else dictSet ls cid (removeDead (deliverPass qs msg).1 (deliverPass qs msg).2)

/-- Embedding of `broadcast_global` (inbox_router.py:220-256) acting on the
`_global_listeners` list: return unchanged when no listener is connected;
otherwise run the full delivery pass and only then remove the queues
collected as dead. -/
def broadcast_global {α : Type} (gls : List (SQueue α)) (msg : α) : List (SQueue α) :=
  if gls.isEmpty then gls
  else removeDead (deliverPass gls msg).1 (deliverPass gls msg).2

/-- The `event_data` dict built by `broadcast_global`
(inbox_router.py:237-241): the event type, the payload fields, then the
timestamp. -/
def globalEventData (event_type : String) (data : List (String × JVal)) (ts : String) : JVal :=
  JVal.jobj ((("type", JVal.jstr event_type) :: data) ++ [("timestamp", JVal.jstr ts)])

/-- Subscription step of `listen_for_messages.event_generator`
(inbox_router.py:417-422): create the topic entry on first subscribe, then
append the fresh queue to it. -/
def subscribeConv {α : Type} (ls : TopicListeners α) (cid : String) (q : SQueue α) :
    TopicListeners α :=
  let ls1 := if dictHas ls cid then ls else dictSet ls cid []
  dictSet ls1 cid ((dictGet? ls1 cid).getD [] ++ [q])

/-- The `finally` block of `listen_for_messages.event_generator`
(inbox_router.py:441-444): if the conversation still has an entry and the
queue is still in it, remove the queue — and nothing else; in particular the
topic entry itself is kept even when it becomes empty. -/
def convDisconnectCleanup {α : Type} (ls : TopicListeners α) (cid : String) (qid : Nat) :
    TopicListeners α :=
  match dictGet? ls cid with
  | some qs =>
    if qs.any (fun x => x.qid == qid) then dictSet ls cid (qs.eraseP (fun x => x.qid == qid))
    else ls
  | none => ls

/-- The `finally` block of `listen_global.event_generator`
(inbox_router.py:392-395): if the queue is still registered, remove it. -/
def globalDisconnectCleanup {α : Type} (gls : List (SQueue α)) (qid : Nat) :
    List (SQueue α) :=
  if gls.any (fun x => x.qid == qid) then gls.eraseP (fun x => x.qid == qid) else gls

/-- How a stream generator terminates: normal completion, cancellation
raised at its suspension point (client disconnect), or any other
exception. -/
inductive ExitReason where
  | completed : ExitReason
  | cancelled : ExitReason
  | failed : ExitReason

/-- Python try/finally semantics for the generator bodies: whichever way the
body terminates — normal return, `asyncio.CancelledError` (caught by the
`except` clause) or a propagating exception — the `finally` block runs on
the state before the generator finishes. -/
def tryFinally {σ : Type} (cleanup : σ → σ) (r : ExitReason) (st : σ) : σ :=
  match r with
  | ExitReason.completed => cleanup st
  | ExitReason.cancelled => cleanup st
  | ExitReason.failed => cleanup st

/-- Termination of `listen_for_messages.event_generator`
(inbox_router.py:415-444): on every exit path the `finally` cleanup runs on
the per-conversation registry. -/
def listen_for_messages_exit {α : Type} (r : ExitReason) (ls : TopicListeners α)
    (cid : String) (qid : Nat) : TopicListeners α :=
  tryFinally (fun s => convDisconnectCleanup s cid qid) r ls

/-- Termination of `listen_global.event_generator`
(inbox_router.py:369-395): on every exit path the `finally` cleanup runs on
the global listener list. -/
def listen_global_exit {α : Type} (r : ExitReason) (gls : List (SQueue α)) (qid : Nat) :
    List (SQueue α) :=
  tryFinally (fun s => globalDisconnectCleanup s qid) r gls

/-- Number of subscriber queues currently registered under a topic. -/
def subCount {α : Type} (ls : TopicListeners α) (cid : String) : Nat :=
  ((dictGet? ls cid).getD []).length

/-- An SSE frame wrapping an already-serialized payload, the shape
`data: <payload>` followed by a blank line used by both stream endpoints. -/
def sseDataFrame (payload : String) : String :=
  "data: " ++ payload ++ "\n\n"

/-- Modelled from the Python standard library: `json.dumps` of a string
value, which always uses double quotes (the values serialized by the router
contain no characters needing escapes). -/
def jsonStrLit (s : String) : String :=
  "\x22" ++ s ++ "\x22"

/-- Modelled from the Python standard library: the comma-joined field list
of `json.dumps` on a flat string-valued dict, with the default separators
(a comma plus space between items, a colon plus space between key and
value). -/
def jsonFields : List (String × String) → String
  | [] => ""
  | [p] => jsonStrLit p.1 ++ ": " ++ jsonStrLit p.2
  | p :: q :: rest => jsonStrLit p.1 ++ ": " ++ jsonStrLit p.2 ++ ", " ++ jsonFields (q :: rest)

/-- Modelled from the Python standard library: `json.dumps` on a flat
string-valued dict with default separators. -/
def jsonDumpsStrObj (fs : List (String × String)) : String :=
  "\x7b" ++ jsonFields fs ++ "\x7d"

/-- The first frame of `listen_for_messages.event_generator`
(inbox_router.py:426): an f-string whose doubled braces produce literal
braces around a Python-repr-style, single-quoted payload. -/
def connectedFrameConv (conversation_id : String) : String :=
  "data: \x7b\x27type\x27:\x27connected\x27,\x27conversation_id\x27:\x27" ++
    conversation_id ++ "\x27\x7d\n\n"

/-- The first frame of `listen_global.event_generator`
(inbox_router.py:378): the connected acknowledgment serialized with
`json.dumps`. -/
def connectedFrameGlobal : String :=
  sseDataFrame (jsonDumpsStrObj [("type", "connected"), ("conversation_id", "global")])

/-- A subsequent data frame of `listen_for_messages.event_generator`
(inbox_router.py:434): the event serialized with `json.dumps`. -/
def messageFrameConv (fs : List (String × String)) : String :=
  sseDataFrame (jsonDumpsStrObj fs)

/-- A subsequent data frame of `listen_global.event_generator`
(inbox_router.py:385): the event serialized with `json.dumps`. -/
def messageFrameGlobal (fs : List (String × String)) : String :=
  sseDataFrame (jsonDumpsStrObj fs)

/-- Completion oracle for the registry scenario: task 1 has already
completed, every other task is still in flight. -/
def c7Done : Nat → Bool := fun t => t == 1

/-- Concrete durable row used to exhibit the read-path defect: a session with
one event and a non-empty state map. -/
def c2Row : DbRow :=
  { app_name := "a", user_id := "u",
    events := JVal.jarr [JVal.jstr "e1"],
    state := JVal.jobj [("k", JVal.jnum 1)] }

/-- Service state with an empty cache and the durable row for session s1. -/
def c2St : ServiceState :=
  { memory_cache := [], db := [("s1", c2Row)], write_tasks := [] }

/-! Map lemmas. -/

@[simp] theorem dictGet?_dictSet_self {α : Type} (m : List (String × α)) (k : String) (v : α) :
    dictGet? (dictSet m k v) k = some v := by
  induction m with
  | nil => simp [dictSet, dictGet?]
  | cons p rest ih =>
    obtain ⟨k2, w⟩ := p
    by_cases h : k2 = k <;> simp [dictSet, dictGet?, h, ih]

theorem dictHas_eq_isSome {α : Type} (m : List (String × α)) (k : String) :
    dictHas m k = (dictGet? m k).isSome := by
  induction m with
  | nil => simp [dictHas, dictGet?]
  | cons p rest ih =>
    obtain ⟨k2, w⟩ := p
    by_cases h : k2 = k <;> simp [dictHas, dictGet?, h, ih]

/-! Session-store lemmas. -/

theorem get_session_cache_hit {st : ServiceState} {sid : String} {v : JVal} (dbOk : Bool)
    (h : dictGet? st.memory_cache sid = some v) :
    get_session st sid dbOk = { result := some v, after := st, durableRead := false } := by
  unfold get_session
  rw [h]

theorem get_session_read_error {st : ServiceState} {sid : String}
    (h : dictGet? st.memory_cache sid = none) :
    get_session st sid false = { result := none, after := st, durableRead := true } := by
  unfold get_session
  rw [h]
  rfl

/-- C1: read-your-writes.  After `save_session_async(id, ...)` a `get_session(id)`
is a cache hit: it returns exactly the just-written record, leaves the service
state unchanged, and performs no durable-store read; the save itself left the
durable store untouched, so this holds before any durable write lands.  The
same holds after `create_session(id, ...)`, whose cached record has empty
events and the given state (absent state becoming the empty object). -/
theorem C1_read_your_writes (st : ServiceState) (sid uid app : String)
    (events state : JVal) (stc : Option JVal) (now nowCreate nowSave : String)
    (done : Nat → Bool) (task : Nat) (dbOk : Bool) :
    (get_session (save_session_async st sid uid app events state now done task) sid dbOk =
      { result := some (sessionDataRecord sid uid app events state now)
        after := save_session_async st sid uid app events state now done task
        durableRead := false })
    ∧ (save_session_async st sid uid app events state now done task).db = st.db
    ∧ (get_session (create_session st sid uid app stc nowCreate nowSave done task).2 sid dbOk =
      { result := some (sessionDataRecord sid uid app (JVal.jarr [])
          (stc.getD (JVal.jobj [])) nowSave)
        after := (create_session st sid uid app stc nowCreate nowSave done task).2
        durableRead := false })
    ∧ (create_session st sid uid app stc nowCreate nowSave done task).2.db = st.db := by
  refine ⟨?_, rfl, ?_, rfl⟩
  · exact get_session_cache_hit dbOk (dictGet?_dictSet_self _ _ _)
  · exact get_session_cache_hit dbOk (dictGet?_dictSet_self _ _ _)

/-- C2: on a cache miss with a durable row present, `get_session` returns and
caches only the parsed `events` column (`row[0]`), not a session record: the
returned value is the bare events array, the cache entry is that same bare
array, and for no timestamp does the result equal the record a save of the
same data would have produced (the `state` column, though selected, is
dropped). -/
theorem C2_read_path_returns_events_only :
    (get_session c2St "s1" true).result = some (JVal.jarr [JVal.jstr "e1"])
    ∧ (get_session c2St "s1" true).after.memory_cache =
        [("s1", JVal.jarr [JVal.jstr "e1"])]
    ∧ ∀ ts : String, (get_session c2St "s1" true).result ≠
        some (sessionDataRecord "s1" "u" "a" (JVal.jarr [JVal.jstr "e1"])
          (JVal.jobj [("k", JVal.jnum 1)]) ts) := by
  refine ⟨rfl, rfl, ?_⟩
  intro ts h
  rw [show (get_session c2St "s1" true).result = some (JVal.jarr [JVal.jstr "e1"]) from rfl] at h
  simp [sessionDataRecord] at h

/-- C9: on a cache miss, a failing durable read is logged and reported as
absence: the call returns `none` — the same result as an id missing from the
durable store — and the whole service state, the cache included, is
unchanged. -/
theorem C9_read_error_reported_as_absence (st : ServiceState) (sid : String)
    (h : dictGet? st.memory_cache sid = none) :
    get_session st sid false = { result := none, after := st, durableRead := true } :=
  get_session_read_error h

theorem C9_read_error_reported_as_absence_witness :
    get_session { memory_cache := [], db := [], write_tasks := [] } "s1" false =
      { result := none, after := { memory_cache := [], db := [], write_tasks := [] },
        durableRead := true } :=
  C9_read_error_reported_as_absence _ "s1" rfl

/-- C6: a failing background durable write is swallowed: the task returns
normally with the service state — cache and durable store — exactly as it
was, with no retry (the single attempted upsert is simply dropped); even a
successful background write never touches the cache.  The delegating
services' background writers behave the same way: a failing delegated write
leaves the durable state unchanged. -/
theorem C6_write_failure_swallowed (st : ServiceState) (sid app uid : String)
    (events state : JVal) (σ : Type) (db : σ) (e : String) :
    async_write_session st sid app uid events state false = st
    ∧ (async_write_session st sid app uid events state true).memory_cache = st.memory_cache
    ∧ (async_write_session st sid app uid events state true).write_tasks = st.write_tasks
    ∧ fast_async_update_events (Except.error e) db = db := by
  exact ⟨rfl, rfl, rfl, rfl⟩

/-! Hub lemmas. -/

@[simp] theorem putEvent_qid {α : Type} (msg : α) (q : SQueue α) :
    (putEvent msg q).qid = q.qid := rfl

@[simp] theorem putEvent_broken {α : Type} (msg : α) (q : SQueue α) :
    (putEvent msg q).broken = q.broken := rfl

@[simp] theorem putIfLive_qid {α : Type} (msg : α) (q : SQueue α) :
    (putIfLive msg q).qid = q.qid := by
  unfold putIfLive
  cases h : q.broken <;> simp [h]

theorem deliverPass_go {α : Type} (msg : α) (qs : List (SQueue α)) (a b : List (SQueue α)) :
    qs.foldl
      (fun acc q =>
        if q.broken then (acc.1 ++ [q], acc.2 ++ [q])
        else (acc.1 ++ [putEvent msg q], acc.2))
      (a, b) =
    (a ++ qs.map (putIfLive msg), b ++ qs.filter (fun q => q.broken)) := by
  induction qs generalizing a b with
  | nil => simp
  | cons q t ih =>
    cases hb : q.broken <;>
      simp [List.foldl_cons, hb, putIfLive, ih, List.filter_cons, List.append_assoc]

theorem deliverPass_eq {α : Type} (qs : List (SQueue α)) (msg : α) :
    deliverPass qs msg = (qs.map (putIfLive msg), qs.filter (fun q => q.broken)) := by
  have h := deliverPass_go msg qs [] []
  simpa [deliverPass] using h

theorem removeDead_cons_skip {α : Type} (x : SQueue α) (l dead : List (SQueue α))
    (h : ∀ d ∈ dead, d.qid ≠ x.qid) :
    removeDead (x :: l) dead = x :: removeDead l dead := by
  induction dead generalizing l with
  | nil => rfl
  | cons d ds ih =>
    have hne : x.qid ≠ d.qid := fun e => (h d (by simp)) e.symm
    have hdx : (x.qid == d.qid) = false := by simpa using hne
    unfold removeDead
    simp only [List.foldl_cons, List.eraseP_cons, hdx, cond_false]
    have step := ih (l.eraseP (fun y => y.qid == d.qid))
      (fun d2 hd2 => h d2 (List.mem_cons_of_mem _ hd2))
    unfold removeDead at step
    exact step

theorem removeDead_map_filter {α : Type} (msg : α) (qs : List (SQueue α))
    (hnd : (qs.map (fun x => x.qid)).Nodup) :
    removeDead (qs.map (putIfLive msg)) (qs.filter (fun x => x.broken)) =
      (qs.filter (fun x => ! x.broken)).map (putEvent msg) := by
  induction qs with
  | nil => rfl
  | cons q t ih =>
    have hpair : (∀ x ∈ t, ¬ x.qid = q.qid) ∧ (t.map (fun x => x.qid)).Nodup := by
      simpa using hnd
    have hfr : ∀ x ∈ t, x.qid ≠ q.qid := hpair.1
    have hnd2 : (t.map (fun x => x.qid)).Nodup := hpair.2
    cases hb : q.broken with
    | true =>
      simp only [List.map_cons, List.filter_cons, hb, putIfLive, if_true, Bool.not_true,
        Bool.false_eq_true, if_false]
      unfold removeDead
      simp only [List.foldl_cons, List.eraseP_cons, beq_self_eq_true, cond_true]
      have step := ih hnd2
      unfold removeDead at step
      exact step
    | false =>
      simp only [List.map_cons, List.filter_cons, hb, putIfLive, Bool.false_eq_true, if_false,
        Bool.not_false, if_true, List.map_cons]
      have hskip : removeDead (putEvent msg q :: t.map (putIfLive msg))
          (t.filter (fun x => x.broken)) =
          putEvent msg q :: removeDead (t.map (putIfLive msg)) (t.filter (fun x => x.broken)) := by
        refine removeDead_cons_skip _ _ _ ?_
        intro d hd
        have hdt : d ∈ t := List.mem_of_mem_filter hd
        simpa using hfr d hdt
      rw [hskip, ih hnd2]

theorem subscribeConv_get {α : Type} (ls : TopicListeners α) (cid : String) (q : SQueue α) :
    dictGet? (subscribeConv ls cid q) cid = some ((dictGet? ls cid).getD [] ++ [q]) := by
  unfold subscribeConv
  cases hg : dictGet? ls cid with
  | some qs =>
    have hh : dictHas ls cid = true := by rw [dictHas_eq_isSome, hg]; rfl
    simp [hh, hg]
  | none =>
    have hh : dictHas ls cid = false := by rw [dictHas_eq_isSome, hg]; rfl
    simp [hh, hg]

theorem eraseP_fresh_append {α : Type} (l : List (SQueue α)) (q : SQueue α) (qid : Nat)
    (h : ∀ x ∈ l, x.qid ≠ qid) (hq : (q.qid == qid) = true) :
    (l ++ [q]).eraseP (fun x => x.qid == qid) = l := by
  induction l with
  | nil => simp [List.eraseP_cons, hq]
  | cons a t ih =>
    have ha : (a.qid == qid) = false := by simpa using h a (by simp)
    simp [List.eraseP_cons, ha, ih (fun x hx => h x (by simp [hx]))]

theorem tryFinally_run {σ : Type} (cleanup : σ → σ) (r : ExitReason) (st : σ) :
    tryFinally cleanup r st = cleanup st := by
  cases r <;> rfl

theorem convDisconnectCleanup_eq_some {α : Type} {ls : TopicListeners α} {cid : String}
    {qs : List (SQueue α)} (qid : Nat) (h : dictGet? ls cid = some qs) :
    convDisconnectCleanup ls cid qid =
      if qs.any (fun x => x.qid == qid) then
        dictSet ls cid (qs.eraseP (fun x => x.qid == qid))
      else ls := by
  unfold convDisconnectCleanup
  rw [h]

theorem broadcast_to_clients_eq_some {α : Type} {ls : TopicListeners α} {cid : String}
    {qs : List (SQueue α)} (msg : α) (h : dictGet? ls cid = some qs) :
    broadcast_to_clients ls cid msg =
      if qs.isEmpty then ls
      else dictSet ls cid (removeDead (deliverPass qs msg).1 (deliverPass qs msg).2) := by
  unfold broadcast_to_clients
  rw [h]

theorem cleanup_after_subscribe {α : Type} (ls : TopicListeners α) (cid : String) (q : SQueue α)
    (hfresh : ∀ x ∈ (dictGet? ls cid).getD [], x.qid ≠ q.qid) :
    convDisconnectCleanup (subscribeConv ls cid q) cid q.qid =
      dictSet (subscribeConv ls cid q) cid ((dictGet? ls cid).getD []) := by
  have hs := subscribeConv_get ls cid q
  rw [convDisconnectCleanup_eq_some q.qid hs]
  have hany : ((dictGet? ls cid).getD [] ++ [q]).any (fun x => x.qid == q.qid) = true := by
    simp
  rw [if_pos hany, eraseP_fresh_append _ _ _ hfresh (by simp)]

/-- C3: guaranteed unsubscribe on every exit.  For both stream generators,
whatever the exit reason — completion, cancellation on disconnect, or any
other exception — the `finally` cleanup removes the subscriber queue from
the registry before the generator finishes: the topic's queue list returns
to its pre-subscribe value, the subscriber count drops by exactly one
relative to the streaming state, and no queue with that handle remains. -/
theorem C3_unsubscribe_on_every_exit {α : Type} (r : ExitReason) (ls : TopicListeners α)
    (gls : List (SQueue α)) (cid : String) (q g : SQueue α)
    (hfresh : ∀ x ∈ (dictGet? ls cid).getD [], x.qid ≠ q.qid)
    (hgfresh : ∀ x ∈ gls, x.qid ≠ g.qid) :
    (dictGet? (listen_for_messages_exit r (subscribeConv ls cid q) cid q.qid) cid =
        some ((dictGet? ls cid).getD [])
      ∧ subCount (listen_for_messages_exit r (subscribeConv ls cid q) cid q.qid) cid + 1 =
          subCount (subscribeConv ls cid q) cid
      ∧ ∀ x ∈ (dictGet? (listen_for_messages_exit r (subscribeConv ls cid q) cid q.qid)
          cid).getD [], x.qid ≠ q.qid)
    ∧ (listen_global_exit r (gls ++ [g]) g.qid = gls
      ∧ (listen_global_exit r (gls ++ [g]) g.qid).length + 1 = (gls ++ [g]).length
      ∧ ∀ x ∈ listen_global_exit r (gls ++ [g]) g.qid, x.qid ≠ g.qid) := by
  have hclean : listen_for_messages_exit r (subscribeConv ls cid q) cid q.qid =
      dictSet (subscribeConv ls cid q) cid ((dictGet? ls cid).getD []) := by
    unfold listen_for_messages_exit
    rw [tryFinally_run]
    exact cleanup_after_subscribe ls cid q hfresh
  have hgclean : listen_global_exit r (gls ++ [g]) g.qid = gls := by
    unfold listen_global_exit
    rw [tryFinally_run]
    unfold globalDisconnectCleanup
    have hany : (gls ++ [g]).any (fun x => x.qid == g.qid) = true := by simp
    rw [if_pos hany, eraseP_fresh_append _ _ _ hgfresh (by simp)]
  refine ⟨⟨?_, ?_, ?_⟩, hgclean, ?_, ?_⟩
  · rw [hclean]; simp
  · rw [hclean]
    unfold subCount
    rw [subscribeConv_get, dictGet?_dictSet_self]
    simp
  · simp only [hclean, dictGet?_dictSet_self, Option.getD_some]
    exact hfresh
  · rw [hgclean]
    simp
  · simp only [hgclean]
    exact hgfresh

theorem C3_unsubscribe_on_every_exit_witness :
    dictGet? (listen_for_messages_exit ExitReason.cancelled
        (subscribeConv ([] : TopicListeners Nat) "c1" (SQueue.mk 1 false [])) "c1" 1) "c1" =
      some []
    ∧ listen_global_exit ExitReason.cancelled [SQueue.mk 2 false ([] : List Nat)] 2 = [] := by
  have h := C3_unsubscribe_on_every_exit (α := Nat) ExitReason.cancelled [] []
    "c1" (SQueue.mk 1 false []) (SQueue.mk 2 false [])
    (by intro x hx; simp [dictGet?] at hx) (by intro x hx; simp at hx)
  exact ⟨h.1.1, h.2.1⟩

/-- C4: broken-subscriber handling.  On a publish to a per-conversation
topic (and likewise to the global listener set), every queue registered at
publish time is offered the event during a single full delivery pass: each
live queue ends with the event appended to its buffer — including queues
positioned after a rejecting one — and the queues that rejected it are
removed from the registry only after the pass, leaving exactly the live
queues, in order, each having received the event. -/
theorem C4_broken_subscriber_delivery {α : Type} (ls : TopicListeners α)
    (gls : List (SQueue α)) (cid : String) (msg gmsg : α) (qs : List (SQueue α))
    (h : dictGet? ls cid = some qs) (hne : qs ≠ [])
    (hnd : (qs.map (fun x => x.qid)).Nodup)
    (hgnd : (gls.map (fun x => x.qid)).Nodup) :
    dictGet? (broadcast_to_clients ls cid msg) cid =
        some ((qs.filter (fun x => ! x.broken)).map (putEvent msg))
    ∧ broadcast_global gls gmsg = (gls.filter (fun x => ! x.broken)).map (putEvent gmsg) := by
  constructor
  · have hemp : qs.isEmpty = false := by
      cases qs with
      | nil => exact absurd rfl hne
      | cons a t => rfl
    rw [broadcast_to_clients_eq_some msg h, hemp]
    simp only [Bool.false_eq_true, if_false]
    rw [deliverPass_eq]
    dsimp only
    rw [dictGet?_dictSet_self, removeDead_map_filter msg qs hnd]
  · cases gls with
    | nil => rfl
    | cons a t =>
      unfold broadcast_global
      simp only [List.isEmpty_cons, Bool.false_eq_true, if_false]
      rw [deliverPass_eq]
      dsimp only
      rw [removeDead_map_filter gmsg (a :: t) hgnd]

theorem C4_broken_subscriber_delivery_witness :
    dictGet? (broadcast_to_clients
        [("c1", [SQueue.mk 1 false ([] : List Nat), SQueue.mk 2 true [], SQueue.mk 3 false []])]
        "c1" 7) "c1" =
      some [SQueue.mk 1 false [7], SQueue.mk 3 false [7]]
    ∧ broadcast_global [SQueue.mk 4 true ([] : List Nat), SQueue.mk 5 false []] 9 =
      [SQueue.mk 5 false [9]] := by
  have h := C4_broken_subscriber_delivery
    [("c1", [SQueue.mk 1 false ([] : List Nat), SQueue.mk 2 true [], SQueue.mk 3 false []])]
    [SQueue.mk 4 true ([] : List Nat), SQueue.mk 5 false []]
    "c1" 7 9
    [SQueue.mk 1 false [], SQueue.mk 2 true [], SQueue.mk 3 false []]
    rfl (by decide) (by decide) (by decide)
  exact h

/-- C5 counterexample: removing the last subscriber does not delete the
topic entry.  After the sole queue of topic c1 leaves — through the
disconnect cleanup, or through dead-queue pruning in a publish — the
registry still contains the key c1, now mapped to the empty list, refuting
the claim that the entry is removed rather than retained empty. -/
theorem C5_counterexample :
    convDisconnectCleanup [("c1", [SQueue.mk 1 false ([] : List Nat)])] "c1" 1 = [("c1", [])]
    ∧ dictHas (convDisconnectCleanup [("c1", [SQueue.mk 1 false ([] : List Nat)])] "c1" 1)
        "c1" = true
    ∧ broadcast_to_clients [("c1", [SQueue.mk 1 true ([] : List Nat)])] "c1" 7 = [("c1", [])] := by
  refine ⟨?_, ?_, ?_⟩ <;> rfl

/-- C5 amended: when the last subscriber queue of a per-conversation topic
is removed, the topic's key is retained in the registry, mapped to the empty
list; a later publish to that topic sees the empty entry and leaves the
registry unchanged (the empty entry is tolerated, not deleted). -/
theorem C5_empty_topic_retained {α : Type} (ls : TopicListeners α) (cid : String)
    (q : SQueue α) (msg : α)
    (h : dictGet? ls cid = some [q]) :
    dictGet? (convDisconnectCleanup ls cid q.qid) cid = some []
    ∧ dictHas (convDisconnectCleanup ls cid q.qid) cid = true
    ∧ broadcast_to_clients (convDisconnectCleanup ls cid q.qid) cid msg =
        convDisconnectCleanup ls cid q.qid := by
  have hclean : convDisconnectCleanup ls cid q.qid = dictSet ls cid [] := by
    rw [convDisconnectCleanup_eq_some q.qid h]
    have hany : [q].any (fun x => x.qid == q.qid) = true := by simp
    rw [if_pos hany]
    simp [List.eraseP_cons]
  have hget : dictGet? (convDisconnectCleanup ls cid q.qid) cid = some [] := by
    rw [hclean]; simp
  refine ⟨hget, ?_, ?_⟩
  · rw [dictHas_eq_isSome, hget]; rfl
  · rw [broadcast_to_clients_eq_some msg hget]
    rfl

theorem C5_empty_topic_retained_witness :
    dictGet? (convDisconnectCleanup [("c1", [SQueue.mk 5 false ([] : List Nat)])] "c1" 5)
        "c1" = some []
    ∧ broadcast_to_clients
        (convDisconnectCleanup [("c1", [SQueue.mk 5 false ([] : List Nat)])] "c1" 5) "c1" 3 =
      convDisconnectCleanup [("c1", [SQueue.mk 5 false ([] : List Nat)])] "c1" 5 := by
  have h := C5_empty_topic_retained [("c1", [SQueue.mk 5 false ([] : List Nat)])] "c1"
    (SQueue.mk 5 false []) 3 rfl
  exact ⟨h.1, h.2.2⟩

/-- C7 counterexample: the schedule step of the wrapper's `delete_session`
appends the new handle without any pruning pass.  Scheduling two deletes
whose tasks (task 1 at least) have already completed leaves both handles in
the registry — handle 1 belongs to a completed operation, so the registry is
not restricted to in-flight operations; the handle is only dropped when a
later pruning schedule runs. -/
theorem C7_counterexample :
    schedule_delete_task (schedule_delete_task [] 1) 2 = [1, 2]
    ∧ 1 ∈ schedule_delete_task (schedule_delete_task [] 1) 2
    ∧ c7Done 1 = true
    ∧ schedule_write_task c7Done (schedule_delete_task (schedule_delete_task [] 1) 2) 3 =
        [2, 3] := by
  refine ⟨rfl, by decide, rfl, rfl⟩

/-- C7 amended: the pruning schedule step used by `save_session_async`,
`update_session_events`, `update_session_state` and `update_session` appends
the new handle and then drops every handle whose operation has completed, so
right after any such schedule the registry holds only handles of
not-yet-completed operations; the wrapper's `delete_session`, however, only
appends, so completed delete handles persist until the next pruning
schedule. -/
theorem C7_bounded_registry_amended (done : Nat → Bool) (tasks : List Nat) (task x : Nat)
    (h : x ∈ schedule_write_task done tasks task) :
    done x = false := by
  unfold schedule_write_task at h
  have hp := List.of_mem_filter h
  simpa using hp

theorem C7_bounded_registry_amended_witness :
    1 ∈ schedule_write_task (fun _ => false) [] 1 ∧ (fun _ : Nat => false) 1 = false :=
  ⟨by decide, C7_bounded_registry_amended (fun _ => false) [] 1 1 (by decide)⟩

theorem not_mem_data_append {c : Char} {s t : String} (hs : c ∉ s.data) (ht : c ∉ t.data) :
    c ∉ (s ++ t).data := by
  rw [String.data_append]
  simp [List.mem_append, hs, ht]

/-- C10: the per-conversation stream's first frame is the Python repr-style,
single-quoted text — it contains the single-quote character and (for a
conversation id free of quote characters) no double quote at all, and it
differs from the frame that JSON serialization of the same payload would
produce — whereas the global stream's connected frame is JSON-serialized
with double quotes and no single quote, and the subsequent data frames of
both streams go through the same JSON serialization. -/
theorem C10_connected_ack_not_json (cid : String) (fs : List (String × String))
    (h34 : Char.ofNat 34 ∉ cid.data) (h39 : Char.ofNat 39 ∉ cid.data) :
    Char.ofNat 39 ∈ (connectedFrameConv cid).data
    ∧ Char.ofNat 34 ∉ (connectedFrameConv cid).data
    ∧ connectedFrameConv cid ≠
        messageFrameConv [("type", "connected"), ("conversation_id", cid)]
    ∧ Char.ofNat 39 ∉
        (messageFrameConv [("type", "connected"), ("conversation_id", cid)]).data
    ∧ connectedFrameGlobal =
        "data: \x7b\x22type\x22: \x22connected\x22, \x22conversation_id\x22: \x22global\x22\x7d\n\n"
    ∧ Char.ofNat 34 ∈ connectedFrameGlobal.data
    ∧ Char.ofNat 39 ∉ connectedFrameGlobal.data
    ∧ messageFrameConv fs = sseDataFrame (jsonDumpsStrObj fs)
    ∧ messageFrameGlobal fs = messageFrameConv fs := by
  have hexp : messageFrameConv [("type", "connected"), ("conversation_id", cid)] =
      "data: " ++ ("\x7b" ++ ("\x22" ++ "type" ++ "\x22" ++ ": " ++
        ("\x22" ++ "connected" ++ "\x22") ++ ", " ++
        ("\x22" ++ "conversation_id" ++ "\x22" ++ ": " ++
          ("\x22" ++ cid ++ "\x22"))) ++ "\x7d") ++ "\n\n" := rfl
  refine ⟨?_, ?_, ?_, ?_, by decide, by decide, by decide, rfl, rfl⟩
  · unfold connectedFrameConv
    rw [String.data_append, String.data_append]
    simp only [List.mem_append]
    left; left
    decide
  · unfold connectedFrameConv
    rw [String.data_append, String.data_append]
    simp only [List.mem_append]
    rintro ((hc | hc) | hc)
    · revert hc; decide
    · exact h34 hc
    · revert hc; decide
  · intro h
    have hl := congrArg String.length h
    have hlc : (connectedFrameConv cid).length = 45 + cid.length + 4 := by
      unfold connectedFrameConv
      rw [String.length_append, String.length_append]
      have h1 : ("data: \x7b\x27type\x27:\x27connected\x27,\x27conversation_id\x27:\x27" :
          String).length = 45 := by decide
      have h2 : ("\x27\x7d\n\n" : String).length = 4 := by decide
      omega
    have hlj : (messageFrameConv [("type", "connected"), ("conversation_id", cid)]).length =
        6 + (1 + (21 + (17 + 2 + (1 + cid.length + 1))) + 1) + 2 := by
      rw [hexp]
      repeat rw [String.length_append]
      have h1 : ("data: " : String).length = 6 := by decide
      have h2 : ("\x7b" : String).length = 1 := by decide
      have h3 : ("\x7d" : String).length = 1 := by decide
      have h4 : ("\n\n" : String).length = 2 := by decide
      have h5 : ("\x22" : String).length = 1 := by decide
      have h6 : ("type" : String).length = 4 := by decide
      have h7 : ("connected" : String).length = 9 := by decide
      have h8 : (", " : String).length = 2 := by decide
      have h9 : (": " : String).length = 2 := by decide
      have h10 : ("conversation_id" : String).length = 15 := by decide
      omega
    rw [hlc, hlj] at hl
    omega
  · rw [hexp]
    exact not_mem_data_append
      (not_mem_data_append (by decide)
        (not_mem_data_append
          (not_mem_data_append (by decide)
            (not_mem_data_append (by decide)
              (not_mem_data_append (by decide)
                (not_mem_data_append (not_mem_data_append (by decide) h39) (by decide)))))
          (by decide)))
      (by decide)

theorem C10_connected_ack_not_json_witness :
    Char.ofNat 39 ∈ (connectedFrameConv "c1").data
    ∧ connectedFrameConv "c1" ≠
        messageFrameConv [("type", "connected"), ("conversation_id", "c1")] := by
  have h := C10_connected_ack_not_json "c1" [("a", "b")] (by decide) (by decide)
  exact ⟨h.1, h.2.2.1⟩

end PattyPeck
